import Mathlib

/-!
# Verification of the `@feizk/parser` message-command parser

This file shallowly embeds the core of the `@feizk/parser` package
(value coercion, tokenizer, argument parser, message parser, schema
validator and the `Parser` facade) in Lean 4 and proves the
specification claims about it.

JavaScript builtins used by the source (`parseFloat`,
`Number#toString`, `Date.parse`, `String#trim`, …) are modelled by
executable Lean functions, each carrying a doc comment naming the
builtin and the scope of the model.  All repository functions are
translated from the TypeScript source of the package.
-/

set_option maxRecDepth 100000

namespace Vel

/-! ## Models of JavaScript string primitives -/

/-- Modelled builtin: the whitespace class used by `String#trim` and
`parseFloat` (restricted to the ASCII whitespace characters that occur
in practice). -/
def jsWs (c : Char) : Bool :=
  c == ' ' || c == '\t' || c == '\n' || c == '\r' || c == '\x0b' || c == '\x0c'

/-- Modelled builtin: `String#trim` (drop leading and trailing whitespace). -/
def jsTrim (s : String) : String :=
  ⟨((s.data.dropWhile jsWs).reverse.dropWhile jsWs).reverse⟩

/-- Modelled builtin: `String#startsWith`. -/
def jsStartsWith (s pre : String) : Bool :=
  pre.data.isPrefixOf s.data

/-- Modelled builtin: `String#endsWith`. -/
def jsEndsWith (s suf : String) : Bool :=
  suf.data.isSuffixOf s.data

/-- Modelled builtin: `String#toLowerCase` (ASCII range; the source only
compares ASCII command words and prefixes). -/
def jsToLower (s : String) : String :=
  ⟨s.data.map Char.toLower⟩

/-- Modelled builtin: `String#slice(n)` — drop the first `n` characters. -/
def jsDrop (s : String) (n : Nat) : String :=
  ⟨s.data.drop n⟩

/-- Modelled builtin: `String#slice(1, -1)` — drop the first and last character. -/
def jsSliceMid (s : String) : String :=
  ⟨(s.data.drop 1).dropLast⟩

/-- JS `\w` word-character class `[A-Za-z0-9_]`. -/
def isWordChar (c : Char) : Bool :=
  ('a' ≤ c && c ≤ 'z') || ('A' ≤ c && c ≤ 'Z') || ('0' ≤ c && c ≤ '9') || c == '_'

/-- JS `\d` digit class. -/
def isJsDigit (c : Char) : Bool :=
  '0' ≤ c && c ≤ '9'

/-! ## Model of JavaScript numbers (`parseFloat` / `Number#toString`)

JS numbers are IEEE-754 doubles.  The source only observes them through
`isNaN`, `toString` round-tripping, and ordering, so we model the
non-`NaN` values as exact rationals plus the two infinities
(`parseFloat` never returns `NaN` here — a failed parse is `none`).
The model is faithful on decimal literals whose value is exactly
representable and rendered in plain (non-exponential) notation, which
covers every string the claims evaluate. -/

inductive JSNum where
  | finite (q : ℚ)
  | inf
  | negInf
  deriving DecidableEq

/-- The spec's notion of a "finite number" (excludes the infinities). -/
def JSNum.finiteNum : JSNum → Bool
  | .finite _ => true
  | _ => false

/-- Numeric value of a digit run. -/
def digitsVal (ds : List Char) : ℕ :=
  ds.foldl (fun a c => 10 * a + (c.toNat - 48)) 0

/-- Modelled builtin: the exponent part of a float literal; returns `0`
when no well-formed exponent follows (as `parseFloat` then simply stops
before the `e`). -/
def parseExponent (cs : List Char) : ℤ :=
  match cs with
  | 'e' :: rest => parseExponentTail rest
  | 'E' :: rest => parseExponentTail rest
  | _ => 0
where
  parseExponentTail (rest : List Char) : ℤ :=
    let (neg, rest') :=
      match rest with
      | '-' :: r => (true, r)
      | '+' :: r => (false, r)
      | _ => (false, rest)
    let ds := rest'.takeWhile isJsDigit
    if ds.isEmpty then 0
    else if neg then -(digitsVal ds : ℤ) else (digitsVal ds : ℤ)

/-- Modelled builtin: `parseFloat`.  Skips leading whitespace, reads an
optional sign, then either an `Infinity` literal or the longest decimal
literal prefix (`digits [. digits] [exponent]`); any trailing junk is
ignored.  `none` models a `NaN` result. -/
def jsParseFloat (s : String) : Option JSNum :=
  let cs := s.data.dropWhile jsWs
  let (neg, cs) :=
    match cs with
    | '-' :: r => (true, r)
    | '+' :: r => (false, r)
    | _ => (false, cs)
  if "Infinity".data.isPrefixOf cs then
    some (if neg then .negInf else .inf)
  else
    let ip := cs.takeWhile isJsDigit
    let r1 := cs.dropWhile isJsDigit
    let (fp, r2) :=
      match r1 with
      | '.' :: r => (r.takeWhile isJsDigit, r.dropWhile isJsDigit)
      | _ => ([], r1)
    if ip.isEmpty && fp.isEmpty then none
    else
      let mant : ℤ := if neg then -(digitsVal (ip ++ fp) : ℤ) else (digitsVal (ip ++ fp) : ℤ)
      let e := parseExponent r2
      let v : ℚ :=
        if 0 ≤ e then mkRat (mant * 10 ^ e.toNat) (10 ^ fp.length)
        else mkRat mant (10 ^ (fp.length + (-e).toNat))
      some (.finite v)

/-- Decimal digits, fuel-based so that it reduces definitionally. -/
def natDigitsAux : ℕ → ℕ → List Char
  | 0, _ => []
  | fuel + 1, n =>
    if n < 10 then [Char.ofNat (48 + n)]
    else natDigitsAux fuel (n / 10) ++ [Char.ofNat (48 + n % 10)]

/-- Decimal digits of a natural number, most significant first. -/
def natDigits (n : ℕ) : List Char :=
  natDigitsAux (n + 1) n

/-- Decimal rendering of a natural number. -/
def natRepr (n : ℕ) : String := ⟨natDigits n⟩

/-- Decimal rendering of an integer. -/
def intRepr (i : ℤ) : String :=
  if i < 0 then "-" ++ natRepr i.natAbs else natRepr i.natAbs

/-- Modelled builtin: `Number#toString` (radix 10).  Renders the exact
rational in the shortest plain decimal notation; the infinities render as
`Infinity` / `-Infinity`.  (JS switches to exponential notation outside
`[1e-6, 1e21)`; no claim evaluates the model there.) -/
def jsNumToString : JSNum → String
  | .inf => "Infinity"
  | .negInf => "-Infinity"
  | .finite q =>
    if q = 0 then "0"
    else
      let sign := if q < 0 then "-" else ""
      let n := q.num.natAbs
      let d := q.den
      match (List.range 400).find? (fun k => 10 ^ k % d = 0) with
      | some k =>
        let scaled := n * 10 ^ k / d
        let ipart := scaled / 10 ^ k
        let fpart := scaled % 10 ^ k
        if k = 0 then sign ++ natRepr ipart
        else
          let fds := natDigits fpart
          sign ++ natRepr ipart ++ "." ++
            ⟨List.replicate (k - fds.length) '0' ++ fds⟩
      | none => sign ++ natRepr n ++ "/" ++ natRepr d

/-! ## Model of JavaScript dates

`new Date(string)` / `Date.parse` are modelled on ISO `YYYY-MM-DD`
calendar dates (the only shapes the package's own tests feed it); every
other string is an invalid date (`none`).  A date value is its epoch
timestamp in milliseconds. -/

/-- Days from civil date (Gregorian), days relative to 1970-01-01. -/
def daysFromCivil (y : ℤ) (m d : ℕ) : ℤ :=
  let y' : ℤ := y - (if m ≤ 2 then 1 else 0)
  let era : ℤ := Int.fdiv y' 400
  let yoe : ℤ := y' - era * 400
  let mp : ℤ := if m > 2 then (m : ℤ) - 3 else (m : ℤ) + 9
  let doy : ℤ := (153 * mp + 2) / 5 + (d : ℤ) - 1
  let doe : ℤ := yoe * 365 + yoe / 4 - yoe / 100 + doy
  era * 146097 + doe - 719468

/-- Number of days in a month of the proleptic Gregorian calendar. -/
def daysInMonth (y : ℤ) (m : ℕ) : ℕ :=
  if m = 2 then
    if y % 4 = 0 && (y % 100 ≠ 0 || y % 400 = 0) then 29 else 28
  else if m = 4 || m = 6 || m = 9 || m = 11 then 30
  else 31

/-- Modelled builtin: `Date.parse` / `new Date(string)`, restricted to
ISO `YYYY-MM-DD` date-only forms (interpreted as UTC, like JS).
Returns the epoch timestamp in milliseconds, or `none` for an invalid
date. -/
def jsDateParse (s : String) : Option ℤ :=
  match s.data with
  | [y1, y2, y3, y4, '-', m1, m2, '-', d1, d2] =>
    if [y1, y2, y3, y4, m1, m2, d1, d2].all isJsDigit then
      let y : ℤ := (digitsVal [y1, y2, y3, y4] : ℤ)
      let mo := digitsVal [m1, m2]
      let da := digitsVal [d1, d2]
      if 1 ≤ mo && mo ≤ 12 && 1 ≤ da && da ≤ daysInMonth y mo then
        some (daysFromCivil y mo da * 86400000)
      else none
    else none
  | _ => none

/-- Civil date from days relative to 1970-01-01 (inverse of `daysFromCivil`). -/
def civilFromDays (z : ℤ) : ℤ × ℕ × ℕ :=
  let z' := z + 719468
  let era : ℤ := Int.fdiv z' 146097
  let doe : ℕ := (z' - era * 146097).toNat
  let yoe : ℕ := (doe - doe / 1460 + doe / 36524 - doe / 146096) / 365
  let doy : ℕ := doe - (365 * yoe + yoe / 4 - yoe / 100)
  let mp : ℕ := (5 * doy + 2) / 153
  let d : ℕ := doy - (153 * mp + 2) / 5 + 1
  let m : ℕ := if mp < 10 then mp + 3 else mp - 9
  (era * 400 + yoe + (if m ≤ 2 then 1 else 0), m, d)

/-- Left-pad a decimal rendering with zeros to a given width. -/
def padNat (width n : ℕ) : String :=
  let ds := natDigits n
  ⟨List.replicate (width - ds.length) '0' ++ ds⟩

/-- Modelled builtin: `Date#toISOString` on an epoch-millisecond value. -/
def isoString (ts : ℤ) : String :=
  let days := Int.fdiv ts 86400000
  let msod := (ts - days * 86400000).toNat
  let ymd := civilFromDays days
  let yStr := if ymd.1 < 0 then "-" ++ padNat 6 ymd.1.natAbs else padNat 4 ymd.1.natAbs
  yStr ++ "-" ++ padNat 2 ymd.2.1 ++ "-" ++ padNat 2 ymd.2.2 ++ "T" ++
    padNat 2 (msod / 3600000) ++ ":" ++ padNat 2 (msod % 3600000 / 60000) ++ ":" ++
    padNat 2 (msod % 60000 / 1000) ++ "." ++ padNat 3 (msod % 1000) ++ "Z"

/-! ## Data model (`src/types/index.ts`) -/

inductive TokenType where
  | text | mention | quoted | typed | separator
  deriving DecidableEq

structure Token where
  type : TokenType
  value : String
  position : ℕ
  deriving DecidableEq

inductive ErrKind where
  | parse | validation
  deriving DecidableEq

structure ParseError where
  type : ErrKind
  message : String
  position : Option ℕ := none
  suggestion : Option String := none
  deriving DecidableEq

inductive MentionType where
  | user | role | channel
  deriving DecidableEq

structure Mention where
  type : MentionType
  id : String
  raw : String
  deriving DecidableEq

/-- `ArgumentValue`: string, number, boolean, date, mention or array of
values (the plain key-value-map alternative of the TS union is never
produced by the parser, so it is omitted). -/
inductive ArgumentValue where
  | str (s : String)
  | num (n : JSNum)
  | bool (b : Bool)
  | date (ts : ℤ)
  | mention (m : Mention)
  | arr (xs : List ArgumentValue)

/-! ## Value coercion (`src/utils/index.ts`, `coerceValue`) -/

/-- The number-detection step of `coerceValue`:
`const num = parseFloat(value); if (!isNaN(num) && num.toString() === value)`. -/
def numberCheck (s : String) : Option JSNum :=
  match jsParseFloat s with
  | some n => if jsNumToString n = s then some n else none
  | none => none

/-- `coerceValue` on a comma-free string (the recursive calls that
`coerceValue` makes on the parts of a comma split; the parts of a split
never contain the separator, so the array branch is vacuous for them and
is omitted here).  Branch order follows the source: empty, booleans,
number, date, string. -/
def coerceAtom (s : String) : ArgumentValue :=
  if jsTrim s = "" then .str ""
  else if s = "true" then .bool true
  else if s = "false" then .bool false
  else
    match numberCheck s with
    | some n => .num n
    | none =>
      match jsDateParse s with
      | some ts => .date ts
      | none => .str s

/-- The final three branches of `coerceValue` (after the number check
failed): comma-separated array (parts trimmed and coerced recursively —
via `coerceAtom`, since the parts of a split are comma-free), date,
otherwise the string unchanged. -/
def coerceTail (s : String) : ArgumentValue :=
  if s.data.contains ',' then
    .arr (((s.splitOn ",").map jsTrim).map coerceAtom)
  else
    match jsDateParse s with
    | some ts => .date ts
    | none => .str s

/-- `coerceValue` (`src/utils/index.ts`): empty string, `"true"`/`"false"`,
round-tripping float, then the array/date/string branches of `coerceTail`. -/
def coerceValue (s : String) : ArgumentValue :=
  if jsTrim s = "" then .str ""
  else if s = "true" then .bool true
  else if s = "false" then .bool false
  else
    match numberCheck s with
    | some n => .num n
    | none => coerceTail s

/-! ## Parser options (`ParserOptions`)

Defaults mirror the `??`-defaults applied by the `Tokenizer` and
`ArgumentParser` constructors.  The mention prefixes are fixed at their
defaults (`<@`, `<@&`, `<#`); the delimiter is a single character (the
source compares one character against the delimiter string, so only
single-character delimiters ever match). -/

inductive ArgFormat where
  | typed | equals | named
  deriving DecidableEq

inductive PrefixConfig where
  | one (s : String)
  | many (l : List String)

structure Opts where
  prefixCfg : PrefixConfig
  caseSensitive : Bool := false
  delimiter : Char := ' '
  argFormat : ArgFormat := .typed
  mentionParsing : Bool := true

/-! ## Tokenizer (`src/core/tokenizer.ts`, i.e. `Tokenizer`) -/

/-- Does one of the three mention patterns (`<@\d+>`, `<@&\d+>`, `<#\d+>`)
start at the head of `cs`? -/
def mentionAt (cs : List Char) : Bool :=
  mentionPat "<@" cs || mentionPat "<@&" cs || mentionPat "<#" cs
where
  mentionPat (p : String) (cs : List Char) : Bool :=
    p.data.isPrefixOf cs &&
      (let rest := cs.drop p.data.length
       let ds := rest.takeWhile isJsDigit
       !ds.isEmpty && (rest.dropWhile isJsDigit).head? == some '>')

/-- `mentionRegex.test(value)`: some position of the string starts a
mention pattern. -/
def containsMentionAux : List Char → Bool
  | [] => false
  | c :: rest => mentionAt (c :: rest) || containsMentionAux rest

/-- Modelled builtin: `RegExp#test` of the compiled mention alternation. -/
def containsMention (s : String) : Bool :=
  containsMentionAux s.data

/-- The typed-token shape `^\w+\([^)]*\)$`. -/
def typedShape (s : String) : Bool :=
  let w := s.data.takeWhile isWordChar
  match s.data.dropWhile isWordChar with
  | '(' :: rest' =>
    !w.isEmpty && !rest'.isEmpty && rest'.getLast? == some ')' &&
      rest'.dropLast.all (fun c => c ≠ ')')
  | _ => false

/-- `Tokenizer.createToken`: classify a raw token value — mention pattern
first, then quoted wrapper, then typed-argument shape, else plain text. -/
def createToken (o : Opts) (value : String) (position : ℕ) : Token :=
  { type :=
      if o.mentionParsing && containsMention value then .mention
      else if (jsStartsWith value "\"" && jsEndsWith value "\"") ||
              (jsStartsWith value "'" && jsEndsWith value "'") then .quoted
      else if typedShape value then .typed
      else .text
    value := value
    position := position }

/-- The mutable scan state of `Tokenizer.tokenize`. -/
structure TokState where
  tokens : List Token := []
  cur : String := ""
  curPos : ℕ := 0
  inD : Bool := false
  inS : Bool := false
  paren : ℤ := 0
  esc : Bool := false

/-- The parenthesis-level update of one scan step (lines
`if (char === '(' …) parenLevel++ / parenLevel--`). -/
def parenAdjust (st : TokState) (c : Char) : ℤ :=
  if c = '(' ∧ st.inD = false ∧ st.inS = false then st.paren + 1
  else if c = ')' ∧ st.inD = false ∧ st.inS = false then st.paren - 1
  else st.paren

/-- One iteration of the `Tokenizer.tokenize` character loop. -/
def tokStep (o : Opts) (st : TokState) (c : Char) (i : ℕ) : TokState :=
  if st.esc then { st with cur := st.cur.push c, esc := false }
  else if c = '\\' then { st with esc := true, cur := st.cur.push c }
  else if c = '"' ∧ st.inS = false then
    if st.inD then { st with cur := st.cur.push c, inD := false }
    else if st.cur ≠ "" then { st with cur := st.cur.push c, inD := true }
    else { st with cur := "\"", curPos := i, inD := true }
  else if c = '\'' ∧ st.inD = false then
    if st.inS then { st with cur := st.cur.push c, inS := false }
    else if st.cur ≠ "" then { st with cur := st.cur.push c, inS := true }
    else { st with cur := "'", curPos := i, inS := true }
  else
    let p := parenAdjust st c
    if c = o.delimiter ∧ st.inD = false ∧ st.inS = false ∧ p = 0 then
      if st.cur ≠ "" then
        { st with tokens := st.tokens ++ [createToken o st.cur st.curPos],
                  cur := "", paren := p }
      else { st with paren := p }
    else if st.cur = "" then
      { st with cur := String.singleton c, curPos := i, paren := p }
    else
      { st with cur := st.cur.push c, paren := p }

/-- The character loop of `Tokenizer.tokenize`. -/
def tokScan (o : Opts) : List Char → ℕ → TokState → TokState
  | [], _, st => st
  | c :: cs, i, st => tokScan o cs (i + 1) (tokStep o st c i)

/-- The finishing steps of `Tokenizer.tokenize`: emit the remaining
token, and report a single unclosed-quote error when the scan ended
inside a quote. -/
def tokFinish (o : Opts) (st : TokState) : List Token × List ParseError :=
  (st.tokens ++ (if st.cur ≠ "" then [createToken o st.cur st.curPos] else []),
   if st.inD ∨ st.inS then
     [{ type := .parse
        message := "Unclosed " ++ (if st.inD then "double" else "single") ++ " quote"
        position := some st.curPos
        suggestion := some ("Close the quote with " ++ (if st.inD then "\"" else "'")) }]
   else [])

/-- `Tokenizer.tokenize`. -/
def tokenize (o : Opts) (message : String) : List Token × List ParseError :=
  tokFinish o (tokScan o message.data 0 {})

/-- Modelled builtin: `String#slice(n, -1)` — drop the first `n`
characters and the last one. -/
def jsSliceTail (s : String) (n : ℕ) : String :=
  ⟨(s.data.drop n).dropLast⟩

/-- `Tokenizer.parseMention` (default mention prefixes; the user prefix
`<@` is tested before the role prefix `<@&`, exactly as in the source). -/
def parseMention (t : Token) : Option Mention :=
  if t.type ≠ .mention then none
  else
    let pick : Option (MentionType × String) :=
      if jsStartsWith t.value "<@" then some (.user, jsSliceTail t.value 2)
      else if jsStartsWith t.value "<@&" then some (.role, jsSliceTail t.value 3)
      else if jsStartsWith t.value "<#" then some (.channel, jsSliceTail t.value 2)
      else none
    match pick with
    | none => none
    | some (ty, id) =>
      if id.data ≠ [] ∧ id.data.all isJsDigit then some { type := ty, id := id, raw := t.value }
      else none

/-- `ParsedCommand` (`src/types/index.ts`).  Optional TS fields are
`Option`s; `mentions` is always assigned by `MessageParser.parse`, so it
is a plain list. -/
structure ParsedCommand where
  prefixUsed : String
  command : String
  resolvedCommand : Option String := none
  subcommands : List String
  resolvedSubcommands : Option (List String) := none
  args : List (String × ArgumentValue)
  originalMessage : String
  mentions : List Mention
  errors : Option (List ParseError) := none
  validationErrors : Option (List String) := none

/-! ## JS record (plain object) operations

`args[key] = value` keeps the original key position on overwrite and
appends new keys; `obj[key]` looks a key up. -/

def recordSet {α : Type} (m : List (String × α)) (k : String) (v : α) : List (String × α) :=
  if m.any (fun p => p.1 = k) then
    m.map (fun p => if p.1 = k then (k, v) else p)
  else m ++ [(k, v)]

def recordGet {α : Type} (m : List (String × α)) (k : String) : Option α :=
  (m.find? (fun p => p.1 = k)).map (·.2)

/-! ## Argument parser (`src/core/argument-parser.ts`, `ArgumentParser`) -/

/-- Match of `^(\w+)\((.*)\)$` (JS `.` does not match line terminators). -/
def typedArgMatch (s : String) : Option (String × String) :=
  let w := s.data.takeWhile isWordChar
  match s.data.dropWhile isWordChar with
  | '(' :: rest' =>
    if w.isEmpty then none
    else
      match rest'.getLast? with
      | some ')' =>
        let mid := rest'.dropLast
        if mid.all (fun c => c ≠ '\n' ∧ c ≠ '\r' ∧ c ≠ '\u2028' ∧ c ≠ '\u2029') then
          some (⟨w⟩, ⟨mid⟩)
        else none
      | _ => none
  | _ => none

/-- Match of `^(\w+)=(.*)$` (JS `.` does not match line terminators). -/
def equalsArgMatch (s : String) : Option (String × String) :=
  let w := s.data.takeWhile isWordChar
  match s.data.dropWhile isWordChar with
  | '=' :: rest' =>
    if w.isEmpty then none
    else if rest'.all (fun c => c ≠ '\n' ∧ c ≠ '\r' ∧ c ≠ '\u2028' ∧ c ≠ '\u2029') then
      some (⟨w⟩, ⟨rest'⟩)
    else none
  | _ => none

/-- The quote-stripping step of `ArgumentParser.parseValue`. -/
def stripQuotes (s : String) : String :=
  if (jsStartsWith s "\"" && jsEndsWith s "\"") ||
     (jsStartsWith s "'" && jsEndsWith s "'") then jsSliceMid s
  else s

/-- `ArgumentParser.parseValue`: strip one pair of surrounding quotes,
then coerce.  (`coerceValue` is total, so the `catch` branch of the
source — which would record a parse error — is unreachable and the
result is never `undefined`.) -/
def parseValue (s : String) : ArgumentValue :=
  coerceValue (stripQuotes s)

/-- Accumulator of the argument-parsing loops: the `args` record and the
`errors` array. -/
structure ArgsAcc where
  args : List (String × ArgumentValue) := []
  errors : List ParseError := []

/-- One iteration of `ArgumentParser.parseTypedArgs`. -/
def typedArgStep (acc : ArgsAcc) (t : Token) : ArgsAcc :=
  match typedArgMatch t.value with
  | some kv => { acc with args := recordSet acc.args kv.1 (parseValue kv.2) }
  | none =>
    { acc with errors := acc.errors ++
        [{ type := .parse
           message := "Invalid typed argument format: \"" ++ t.value ++ "\""
           position := some t.position
           suggestion := some "Use format: key(value)" }] }

/-- `ArgumentParser.parseTypedArgs` over a token suffix. -/
def parseTypedArgs (ts : List Token) (acc : ArgsAcc) : ArgsAcc :=
  ts.foldl typedArgStep acc

/-- One iteration of `ArgumentParser.parseEqualsArgs`. -/
def equalsArgStep (acc : ArgsAcc) (t : Token) : ArgsAcc :=
  match equalsArgMatch t.value with
  | some kv => { acc with args := recordSet acc.args kv.1 (parseValue kv.2) }
  | none =>
    { acc with errors := acc.errors ++
        [{ type := .parse
           message := "Invalid equals argument format: \"" ++ t.value ++ "\""
           position := some t.position
           suggestion := some "Use format: key=value" }] }

/-- `ArgumentParser.parseEqualsArgs` over a token suffix. -/
def parseEqualsArgs (ts : List Token) (acc : ArgsAcc) : ArgsAcc :=
  ts.foldl equalsArgStep acc

/-- `ArgumentParser.parseNamedArgs` over a token suffix (pairwise
`--key value` consumption). -/
def parseNamedArgs : List Token → ArgsAcc → ArgsAcc
  | [], acc => acc
  | t :: ts, acc =>
    if jsStartsWith t.value "--" then
      let key := jsDrop t.value 2
      match ts with
      | v :: ts' =>
        parseNamedArgs ts' { acc with args := recordSet acc.args key (parseValue v.value) }
      | [] =>
        { acc with errors := acc.errors ++
            [{ type := .parse
               message := "Named argument \"" ++ key ++ "\" missing value"
               position := some t.position
               suggestion := some "Provide a value after --key" }] }
    else
      parseNamedArgs ts
        { acc with errors := acc.errors ++
            [{ type := .parse
               message := "Unexpected token in named args: \"" ++ t.value ++ "\""
               position := some t.position
               suggestion := some "Use --key value format" }] }

/-- `ArgumentParser.parseArguments`: no-op on an out-of-range start
index, otherwise dispatch on the configured format. -/
def parseArguments (o : Opts) (tokens : List Token) (startIndex : ℤ) :
    List (String × ArgumentValue) × List ParseError :=
  if startIndex < 0 ∨ (tokens.length : ℤ) ≤ startIndex then ([], [])
  else
    let acc :=
      match o.argFormat with
      | .typed => parseTypedArgs (tokens.drop startIndex.toNat) {}
      | .equals => parseEqualsArgs (tokens.drop startIndex.toNat) {}
      | .named => parseNamedArgs (tokens.drop startIndex.toNat) {}
    (acc.args, acc.errors)

/-! ## Message parser (`src/core/index.ts`, `MessageParser`) -/

/-- The per-format argument-token detection of
`MessageParser.isArgumentToken` (`^\w+\(` / `^\w+=` / leading `--`). -/
def isArgumentToken (o : Opts) (t : Token) : Bool :=
  match o.argFormat with
  | .typed =>
    !(t.value.data.takeWhile isWordChar).isEmpty &&
      (t.value.data.dropWhile isWordChar).head? == some '('
  | .equals =>
    !(t.value.data.takeWhile isWordChar).isEmpty &&
      (t.value.data.dropWhile isWordChar).head? == some '='
  | .named => jsStartsWith t.value "--"

/-- Result of `MessageParser.extractCommandAndSubcommands`. -/
structure ExtractResult where
  command : String
  subcommands : List String
  argStartIndex : ℤ
  parseErrors : List ParseError

/-- The token walk of `MessageParser.extractCommandAndSubcommands`. -/
def extractWalk (o : Opts) : List Token → ℕ → String → List String → String × List String × ℤ
  | [], _, cmd, subs => (cmd, subs, -1)
  | t :: ts, i, cmd, subs =>
    if t.type = .mention ∨ t.type = .separator then extractWalk o ts (i + 1) cmd subs
    else if isArgumentToken o t then (cmd, subs, (i : ℤ))
    else if cmd = "" then extractWalk o ts (i + 1) t.value subs
    else extractWalk o ts (i + 1) cmd (subs ++ [t.value])

/-- `MessageParser.extractCommandAndSubcommands`. -/
def extractCommandAndSubcommands (o : Opts) (tokens : List Token) : ExtractResult :=
  let r := extractWalk o tokens 0 "" []
  { command := r.1
    subcommands := r.2.1
    argStartIndex := r.2.2
    parseErrors :=
      if r.1 = "" then
        [{ type := .parse, message := "No command found in message", position := some 0 }]
      else [] }

/-- The prefix list of the configuration (a single prefix behaves as a
one-element list). -/
def prefixList : PrefixConfig → List String
  | .one s => [s]
  | .many l => l

/-- `MessageParser.findPrefix`: first matching prefix wins (case folded
unless `caseSensitive`); on failure both components are empty. -/
def findPrefixAux (o : Opts) (message : String) : List String → String × String
  | [] => ("", "")
  | p :: ps =>
    let checkMessage := if o.caseSensitive then message else jsToLower message
    let checkPrefix := if o.caseSensitive then p else jsToLower p
    if jsStartsWith checkMessage checkPrefix then (p, jsDrop message p.data.length)
    else findPrefixAux o message ps

/-- `MessageParser.findPrefix`. -/
def findPrefix (o : Opts) (message : String) : String × String :=
  findPrefixAux o message (prefixList o.prefixCfg)

/-- `MessageParser.extractMentions`: every mention-classified token is
converted; invalid ones are silently dropped. -/
def extractMentions (tokens : List Token) : List Mention :=
  tokens.foldl
    (fun acc t =>
      if t.type = .mention then
        match parseMention t with
        | some m => acc ++ [m]
        | none => acc
      else acc) []

/-- `MessageParser.parse`: null on an empty/whitespace message, a failed
prefix match or a bare prefix; null on zero tokens; null on a
case-sensitive command-case mismatch; otherwise the assembled
`ParsedCommand` with `errors` attached only when non-empty. -/
def MessageParser.parse (o : Opts) (message : String) : Option ParsedCommand :=
  if jsTrim message = "" then none
  else
    let pr := findPrefix o message
    if jsTrim pr.2 = "" then none
    else
      let tk := tokenize o (jsTrim pr.2)
      if tk.1 = [] then none
      else
        let ex := extractCommandAndSubcommands o tk.1
        if o.caseSensitive = true ∧ ex.command ≠ jsToLower ex.command then none
        else
          let pa := parseArguments o tk.1 ex.argStartIndex
          let allErrors := tk.2 ++ ex.parseErrors ++ pa.2
          some { prefixUsed := pr.1
                 command := ex.command
                 subcommands := ex.subcommands
                 args := pa.1
                 originalMessage := message
                 mentions := extractMentions tk.1
                 errors := if allErrors = [] then none else some allErrors }

/-! ## Schema data model (`ArgumentSchema`, `CommandSchema`) -/

inductive ArgType where
  | string | number | boolean | date | array | mention | custom
  deriving DecidableEq

/-- A `min`/`max` bound: TS declares them as `number | string`. -/
inductive MMVal where
  | num (q : ℚ)
  | str (s : String)

/-- `ArgumentSchema` (`src/types/index.ts`).  `required` is a plain
`Bool` (an undefined TS field is falsy); a `customValidator` returns
`Except String Bool`, where `.error m` models a throw or rejection whose
message renders as `m`.  The `defaultValue` field is never read by the
validator and is omitted. -/
structure ArgumentSchema where
  type : ArgType
  required : Bool := false
  minLength : Option ℤ := none
  maxLength : Option ℤ := none
  pattern : Option String := none
  min : Option MMVal := none
  max : Option MMVal := none
  minItems : Option ℤ := none
  maxItems : Option ℤ := none
  allowedValues : Option (List ArgumentValue) := none
  customValidator : Option (ArgumentValue → Except String Bool) := none
  customErrorMessage : Option String := none

/-- `CommandSchema` (`src/types/index.ts`); records become association
lists in declaration order. -/
structure CommandSchema where
  aliases : Option (List String) := none
  allowedSubcommands : Option (List String) := none
  args : Option (List (String × ArgumentSchema)) := none
  subArgs : Option (List (String × List (String × ArgumentSchema))) := none
  subAliases : Option (List (String × List String)) := none

/-! ## JS value conversion helpers used in validator messages -/

/-- Modelled builtin: `typeof value` for the values the parser produces. -/
def jsTypeof : ArgumentValue → String
  | .str _ => "string"
  | .num _ => "number"
  | .bool _ => "boolean"
  | .date _ => "object"
  | .mention _ => "object"
  | .arr _ => "object"

/-- Modelled builtin: JS string conversion (template interpolation and
`Array#join`).  A `Date` renders here via its ISO form (the real
`Date#toString` is timezone dependent; no claim observes it) and a plain
object as `[object Object]`. -/
def jsToStr : ArgumentValue → String
  | .str s => s
  | .num n => jsNumToString n
  | .bool b => if b then "true" else "false"
  | .date ts => isoString ts
  | .mention _ => "[object Object]"
  | .arr xs => String.intercalate "," (jsToStrList xs)
where
  jsToStrList : List ArgumentValue → List String
  | [] => []
  | v :: vs => jsToStr v :: jsToStrList vs

/-- Modelled builtin: string conversion of a possibly-`undefined` value. -/
def jsOptToStr : Option ArgumentValue → String
  | none => "undefined"
  | some v => jsToStr v

/-- Modelled builtin: `Array#includes`, i.e. SameValueZero.  Primitives
compare by value; objects (dates, mentions, arrays) compare by
reference, and a freshly parsed object is never reference-equal to a
schema literal, so those cases are `false`. -/
def jsStrictEq : ArgumentValue → ArgumentValue → Bool
  | .str a, .str b => a == b
  | .num a, .num b => a == b
  | .bool a, .bool b => a == b
  | _, _ => false

/-- `allowedValues.includes(value)` where `value` may be `undefined`. -/
def jsIncludes (xs : List ArgumentValue) : Option ArgumentValue → Bool
  | none => false
  | some v => xs.any (fun x => jsStrictEq x v)

/-- Modelled builtin: the `||`-defaulting of a possibly-undefined,
possibly-empty string (`""` is falsy). -/
def jsOrStr (o : Option String) (d : String) : String :=
  match o with
  | some m => if m = "" then d else m
  | none => d

/-- Modelled builtin: `Array#join(",")` after converting each element. -/
def joinComma (xs : List String) : String :=
  String.intercalate "," xs

/-! ## Schema validator (`src/validation/index.ts`, `SchemaValidator`) -/

/-- The `${context}` fragment of validator messages. -/
def contextStr : Option String → String
  | some s => " for subcommand \"" ++ s ++ "\""
  | none => ""

/-- `value < q` on a JS number (used by the numeric `min` check). -/
def JSNum.ltQ : JSNum → ℚ → Bool
  | .finite x, q => x < q
  | .inf, _ => false
  | .negInf, _ => true

/-- `value > q` on a JS number (used by the numeric `max` check). -/
def JSNum.gtQ : JSNum → ℚ → Bool
  | .finite x, q => q < x
  | .inf, _ => true
  | .negInf, _ => false

/-- `new Date(x)` on a `min`/`max` bound: a number is truncated to an
epoch-millisecond timestamp, a string goes through the date parser;
`none` models an invalid date (whose comparisons are all false and which
is only rendered inside branches that are then unreachable). -/
def mmToDate : MMVal → Option ℤ
  | .num q => some (Int.tdiv q.num (q.den : ℤ))
  | .str s => jsDateParse s

/-- `SchemaValidator.validateType`: the per-type constraint checks.
`rex` is the (uninterpreted) model of `new RegExp(pattern).test`. -/
def validateType (rex : String → String → Bool) (s : ArgumentSchema) (v : ArgumentValue)
    (argName command : String) (sub : Option String) : List String :=
  let context := contextStr sub
  let head := "Argument \"" ++ argName ++ "\"" ++ context
  match s.type with
  | .string =>
    match v with
    | .str str =>
      (match s.minLength with
       | some m => if (str.data.length : ℤ) < m then
           [head ++ " must be at least " ++ intRepr m ++ " characters long, but got " ++
             natRepr str.data.length ++ "."] else []
       | none => []) ++
      (match s.maxLength with
       | some m => if m < (str.data.length : ℤ) then
           [head ++ " must be at most " ++ intRepr m ++ " characters long, but got " ++
             natRepr str.data.length ++ "."] else []
       | none => []) ++
      (match s.pattern with
       | some p => if rex p str then [] else
           [head ++ " must match pattern \"" ++ p ++ "\", but got \"" ++ str ++ "\"."]
       | none => [])
    | _ => [head ++ " must be of type \"string\", but got \"" ++ jsTypeof v ++ "\"."]
  | .number =>
    match v with
    | .num n =>
      (match s.min with
       | some (.num q) => if n.ltQ q then
           [head ++ " must be at least " ++ jsNumToString (.finite q) ++ ", but got " ++
             jsNumToString n ++ "."] else []
       | _ => []) ++
      (match s.max with
       | some (.num q) => if n.gtQ q then
           [head ++ " must be at most " ++ jsNumToString (.finite q) ++ ", but got " ++
             jsNumToString n ++ "."] else []
       | _ => [])
    | _ => [head ++ " must be of type \"number\", but got \"" ++ jsTypeof v ++ "\"."]
  | .array =>
    match v with
    | .arr xs =>
      (match s.minItems with
       | some m => if (xs.length : ℤ) < m then
           [head ++ " must have at least " ++ intRepr m ++ " items, but got " ++
             natRepr xs.length ++ "."] else []
       | none => []) ++
      (match s.maxItems with
       | some m => if m < (xs.length : ℤ) then
           [head ++ " must have at most " ++ intRepr m ++ " items, but got " ++
             natRepr xs.length ++ "."] else []
       | none => []) ++
      (match s.pattern with
       | some p =>
         xs.enum.foldl
           (fun acc iv =>
             match iv.2 with
             | .str el =>
               if rex p el then acc
               else acc ++ [head ++ " element at index " ++ natRepr iv.1 ++
                 " must match pattern \"" ++ p ++ "\", but got \"" ++ el ++ "\"."]
             | _ => acc) []
       | none => [])
    | _ => [head ++ " must be of type \"array\", but got \"" ++ jsTypeof v ++ "\"."]
  | .date =>
    match v with
    | .date ts =>
      (match s.min with
       | some mv =>
         match mmToDate mv with
         | some mts => if ts < mts then
             [head ++ " must be after " ++ isoString mts ++ ", but got " ++ isoString ts ++ "."]
           else []
         | none => []
       | none => []) ++
      (match s.max with
       | some mv =>
         match mmToDate mv with
         | some mts => if mts < ts then
             [head ++ " must be before " ++ isoString mts ++ ", but got " ++ isoString ts ++ "."]
           else []
         | none => []
       | none => [])
    | _ => [head ++ " must be of type \"date\", but got \"" ++ jsTypeof v ++ "\"."]
  | .boolean =>
    match v with
    | .bool _ => []
    | _ => [head ++ " must be of type \"boolean\", but got \"" ++ jsTypeof v ++ "\"."]
  | .mention => []
  | .custom =>
    match s.customValidator with
    | some f =>
      match f v with
      | .ok true => []
      | .ok false => [jsOrStr s.customErrorMessage (head ++ " failed custom validation.")]
      | .error m => [head ++ " custom validation error: " ++ m]
    | none => []

/-- `SchemaValidator.validateArgument`: `allowedValues` first (on any
type, even an absent value), then the required check (which returns
early), then the type/constraint checks on a present value. -/
def validateArgument (rex : String → String → Bool) (s : ArgumentSchema)
    (value : Option ArgumentValue) (argName command : String) (sub : Option String) :
    List String :=
  let context := contextStr sub
  let e1 :=
    match s.allowedValues with
    | some vs =>
      if jsIncludes vs value then []
      else
        ["Argument \"" ++ argName ++ "\"" ++ context ++ " must be one of: " ++
          joinComma (vs.map jsToStr) ++ ", but got \"" ++ jsOptToStr value ++ "\"."]
    | none => []
  if s.required && value.isNone then
    e1 ++ ["Argument \"" ++ argName ++ "\"" ++ context ++ " is required for command \"" ++
      command ++ "\"."]
  else
    match value with
    | none => e1
    | some v => e1 ++ validateType rex s v argName command sub

/-- The override set of `SchemaValidator.validateArguments`: every
argument name that has a `subArgs` entry under a subcommand present in
the parsed command. -/
def overriddenArgs (schema : CommandSchema) (subs : List String) : List String :=
  match schema.subArgs with
  | none => []
  | some sa =>
    subs.foldl
      (fun acc sub =>
        match recordGet sa sub with
        | some subSchema => acc ++ subSchema.map (·.1)
        | none => acc) []

/-- `SchemaValidator.validateArguments`: global rules (skipping the
overridden ones) first, then every present subcommand's `subArgs` rules. -/
def validateArguments (rex : String → String → Bool) (parsed : ParsedCommand)
    (schema : CommandSchema) : List String :=
  let ov := overriddenArgs schema parsed.subcommands
  let globalErrs :=
    match schema.args with
    | none => []
    | some as =>
      as.foldl
        (fun acc p =>
          if ov.contains p.1 then acc
          else acc ++ validateArgument rex p.2 (recordGet parsed.args p.1) p.1 parsed.command none)
        []
  let subErrs :=
    match schema.subArgs with
    | none => []
    | some sa =>
      parsed.subcommands.foldl
        (fun acc sub =>
          match recordGet sa sub with
          | some subSchema =>
            subSchema.foldl
              (fun a2 p =>
                a2 ++ validateArgument rex p.2 (recordGet parsed.args p.1) p.1 parsed.command (some sub))
              acc
          | none => acc)
        []
  globalErrs ++ subErrs

/-! ## Alias resolution (`src/utils/index.ts`) -/

structure ResolvedCmd where
  resolved : String
  original : Option String := none

/-- `resolveCommandAlias`. -/
def resolveCommandAlias (command : String) (aliases : List (String × List String)) :
    ResolvedCmd :=
  match aliases.find? (fun p => p.2.contains command) with
  | some p => { resolved := p.1, original := some command }
  | none => { resolved := command }

structure ResolvedSubs where
  resolved : List String
  originals : Option (List String) := none

/-- `resolveSubcommandAliases`. -/
def resolveSubcommandAliases (subcommands : List String)
    (subAliases : List (String × List String)) : ResolvedSubs :=
  let r :=
    subcommands.foldl
      (fun (acc : List String × List String × Bool) sub =>
        match subAliases.find? (fun p => p.2.contains sub) with
        | some p => (acc.1 ++ [p.1], acc.2.1 ++ [sub], true)
        | none => (acc.1 ++ [sub], acc.2.1 ++ [sub], acc.2.2))
      ([], [], false)
  { resolved := r.1, originals := if r.2.2 then some r.2.1 else none }

/-- `SchemaValidator.getCommandAliases`: commands with a non-empty alias
list, in registration order. -/
def getCommandAliases (schemas : List (String × CommandSchema)) :
    List (String × List String) :=
  schemas.foldl
    (fun acc p =>
      match p.2.aliases with
      | some al => if al.isEmpty then acc else acc ++ [(p.1, al)]
      | none => acc)
    []

/-- `SchemaValidator.getSubcommandAliases`. -/
def getSubcommandAliases (schemas : List (String × CommandSchema)) (command : String) :
    List (String × List String) :=
  match recordGet schemas command with
  | some schema => schema.subAliases.getD []
  | none => []

/-- `SchemaValidator.validate`: resolve aliases (mutating the parsed
command), then — when a schema is registered for the resolved command —
check `allowedSubcommands` and validate the arguments.  Returns the
updated parsed command together with the validation error messages. -/
def SchemaValidator.validate (rex : String → String → Bool)
    (schemas : List (String × CommandSchema)) (parsed : ParsedCommand) :
    ParsedCommand × List String :=
  let rc := resolveCommandAlias parsed.command (getCommandAliases schemas)
  let rs := resolveSubcommandAliases parsed.subcommands
    (getSubcommandAliases schemas rc.resolved)
  let parsed' :=
    { parsed with
        command := rc.resolved
        resolvedCommand := rc.original
        subcommands := rs.resolved
        resolvedSubcommands := rs.originals }
  match recordGet schemas rc.resolved with
  | none => (parsed', [])
  | some schema =>
    let subErrs :=
      match schema.allowedSubcommands with
      | some allowed =>
        rs.resolved.foldl
          (fun acc sub =>
            if allowed.contains sub then acc
            else acc ++ ["Subcommand \"" ++ sub ++ "\" is not allowed for command \"" ++
              rc.resolved ++ "\"."])
          []
      | none => []
    (parsed', subErrs ++ validateArguments rex parsed' schema)

/-! ## Parser facade (`src/index.ts`, `Parser`) -/

/-- The facade's instance state: configuration, registered schemas, and
the last-parsed memory. -/
structure ParserState where
  opts : Opts
  schemas : List (String × CommandSchema) := []
  lastParsed : Option ParsedCommand := none

/-- JS falsiness of the `prefix` option (`!options.prefix ||
(Array.isArray(options.prefix) && options.prefix.length === 0)`): an
empty string is falsy, an array only fails when empty. -/
def prefixFalsy : PrefixConfig → Bool
  | .one s => s == ""
  | .many l => l.isEmpty

/-- The `Parser` constructor: throws `Prefix must be provided` on a
falsy/empty prefix configuration, otherwise a fresh state with no
schemas and no last-parsed command. -/
def Parser.new (o : Opts) : Except String ParserState :=
  if prefixFalsy o.prefixCfg then .error "Prefix must be provided"
  else .ok { opts := o }

/-- `Parser.getLastParsed`. -/
def Parser.getLastParsed (st : ParserState) : Option ParsedCommand :=
  st.lastParsed

/-- `Parser.registerSchema` (Map.set semantics: overwrite in place). -/
def Parser.registerSchema (st : ParserState) (command : String) (schema : CommandSchema) :
    ParserState :=
  { st with schemas := recordSet st.schemas command schema }

/-- `Parser.parse`: message parsing, then validation (which rewrites
aliases in place), attaching `validationErrors` only when non-empty; on
success the last-parsed memory is updated, and a `null` message-parse
leaves the state untouched. -/
def Parser.parse (rex : String → String → Bool) (st : ParserState) (message : String) :
    Option ParsedCommand × ParserState :=
  match MessageParser.parse st.opts message with
  | none => (none, st)
  | some result =>
    let vr := SchemaValidator.validate rex st.schemas result
    let result' := if vr.2 = [] then vr.1 else { vr.1 with validationErrors := some vr.2 }
    (some result', { st with lastParsed := some result' })

/-! ## Demo configurations and fixtures used by witnesses -/

/-- The default configuration with prefix `!`. -/
def bangOpts : Opts := { prefixCfg := .one "!" }

/-- Prefix `!` with `caseSensitive` enabled. -/
def bangOptsCS : Opts := { prefixCfg := .one "!", caseSensitive := true }

/-- A regex-test model instance for witnesses (no schema in any witness
declares a `pattern`, so the choice is irrelevant). -/
def rexNone : String → String → Bool := fun _ _ => false

/-- Fixture: a parsed `!info general` command. -/
def infoParsed : ParsedCommand :=
  { prefixUsed := "!", command := "info", subcommands := ["general"], args := [],
    originalMessage := "!info general", mentions := [] }

/-- Fixture: a schema whose `subArgs` for `general` overrides the global
`category` rule. -/
def infoSchema : CommandSchema :=
  { args := some [("category", { type := .string, required := true })],
    subArgs := some [("general", [("category", { type := .string })])] }

end Vel

namespace Vel

/-! ## Helper lemmas -/

theorem coerceTail_ne_num (s : String) (n : JSNum) : coerceTail s ≠ .num n := by
  unfold coerceTail
  split_ifs with hc
  · simp
  · rcases jsDateParse s with _ | ts <;> simp

theorem numberCheck_eq_some (s : String) (n : JSNum) :
    numberCheck s = some n ↔ jsParseFloat s = some n ∧ jsNumToString n = s := by
  unfold numberCheck
  rcases h : jsParseFloat s with _ | m
  · simp
  · simp only [Option.some.injEq]
    split_ifs with hr
    · constructor
      · rintro ⟨rfl⟩; exact ⟨rfl, hr⟩
      · rintro ⟨⟨rfl⟩, _⟩; rfl
    · constructor
      · rintro ⟨⟩
      · rintro ⟨⟨rfl⟩, hs⟩; exact absurd hs hr

theorem push_ne_empty (s : String) (c : Char) : s.push c ≠ "" := by
  intro h
  have h2 : s.data ++ [c] = [] := congrArg String.data h
  simp at h2

theorem singleton_ne_empty (c : Char) : String.singleton c ≠ "" := by
  intro h
  have h2 : [c] = ([] : List Char) := congrArg String.data h
  simp at h2

theorem tokStep_paren_no_split (o : Opts) (st : TokState) (c : Char) (i : ℕ)
    (hesc : st.esc = false) (hinD : st.inD = false) (hinS : st.inS = false)
    (hp : st.paren ≠ 0) (hpa : parenAdjust st c ≠ 0) :
    (tokStep o st c i).tokens = st.tokens ∧ (tokStep o st c i).cur = st.cur.push c := by
  unfold tokStep
  by_cases h1 : c = '\\'
  · simp [hesc, h1]
  · by_cases h2 : c = '"'
    · simp only [hesc, hinD, hinS, h1, h2, Bool.false_eq_true, if_false, if_true,
        eq_self_iff_true, and_true, true_and, and_self]
      by_cases h3 : st.cur = "" <;> simp [h3, String.push, String.singleton]
    · by_cases h3 : c = '\''
      · simp only [hesc, hinD, hinS, h1, h2, h3, Bool.false_eq_true, if_false, if_true,
          eq_self_iff_true, and_true, true_and, and_self]
        by_cases h4 : st.cur = "" <;> simp [h4, String.push, String.singleton]
      · simp only [hesc, hinD, hinS, h1, h2, h3, Bool.false_eq_true, if_false,
          eq_self_iff_true, and_true, true_and]
        rw [if_neg (fun hh => hpa (hh.2 : parenAdjust st c = 0))]
        by_cases h4 : st.cur = "" <;> simp [h4, String.push, String.singleton]

theorem tokenize_unclosed_quote (o : Opts) (msg : String)
    (h : (tokScan o msg.data 0 {}).inD = true ∨ (tokScan o msg.data 0 {}).inS = true) :
    (∃ e ∈ (tokenize o msg).2,
        e.message = "Unclosed " ++
          (if (tokScan o msg.data 0 {}).inD then "double" else "single") ++ " quote") ∧
    ((tokScan o msg.data 0 {}).cur ≠ "" →
      createToken o (tokScan o msg.data 0 {}).cur (tokScan o msg.data 0 {}).curPos ∈
        (tokenize o msg).1) := by
  constructor
  · simp only [tokenize, tokFinish, if_pos h]
    exact ⟨_, List.mem_singleton_self _, rfl⟩
  · intro hc
    simp only [tokenize, tokFinish, if_pos hc]
    exact List.mem_append_right _ (List.mem_singleton_self _)

theorem mem_foldl_overridden (sa : List (String × List (String × ArgumentSchema))) (X : String) :
    ∀ (subs : List String) (acc : List String),
      ((∃ sub ∈ subs, ∃ ss, recordGet sa sub = some ss ∧ X ∈ ss.map Prod.fst) ∨ X ∈ acc) →
      X ∈ subs.foldl
        (fun acc sub =>
          match recordGet sa sub with
          | some subSchema => acc ++ subSchema.map (·.1)
          | none => acc) acc
  | [], acc, h => by
    rcases h with ⟨sub, hs, _⟩ | h
    · cases hs
    · exact h
  | sub :: subs, acc, h => by
    rw [List.foldl_cons]
    apply mem_foldl_overridden sa X subs
    rcases h with ⟨s', hs', ss, hss, hX⟩ | h
    · rcases List.mem_cons.mp hs' with rfl | hmem
      · right
        rw [hss]
        exact List.mem_append_right _ hX
      · exact Or.inl ⟨s', hmem, ss, hss, hX⟩
    · right
      rcases hg : recordGet sa sub with _ | ss
      · exact h
      · exact List.mem_append_left _ h

theorem foldl_skip_filter (ov : List String) (X : String)
    (hX : ov.contains X = true) (h : (String × ArgumentSchema) → List String) :
    ∀ (l : List (String × ArgumentSchema)) (acc : List String),
      l.foldl (fun acc p => if ov.contains p.1 then acc else acc ++ h p) acc =
        (l.filter (fun p => p.1 ≠ X)).foldl
          (fun acc p => if ov.contains p.1 then acc else acc ++ h p) acc
  | [], acc => rfl
  | p :: l, acc => by
    rw [List.foldl_cons, List.filter_cons]
    by_cases hp : p.1 = X
    · rw [if_pos (show ov.contains p.1 = true by rw [hp]; exact hX),
        if_neg (show ¬decide (p.1 ≠ X) = true by simp [hp])]
      exact foldl_skip_filter ov X hX h l acc
    · rw [if_pos (show decide (p.1 ≠ X) = true by simp [hp]), List.foldl_cons]
      exact foldl_skip_filter ov X hX h l _

theorem contains_of_mem (l : List String) (X : String) (h : X ∈ l) : l.contains X = true := by
  simpa [List.contains] using h

theorem tokStep_tokens_mono (o : Opts) (st : TokState) (c : Char) (i : ℕ)
    (h : st.tokens ≠ []) : (tokStep o st c i).tokens ≠ [] := by
  unfold tokStep
  by_cases h1 : st.esc = true
  · simpa [h1] using h
  · rw [if_neg h1]
    by_cases h2 : c = '\\'
    · simpa [h2] using h
    · rw [if_neg h2]
      by_cases h3 : c = '"' ∧ st.inS = false
      · rw [if_pos h3]
        split_ifs <;> simpa using h
      · rw [if_neg h3]
        by_cases h4 : c = '\'' ∧ st.inD = false
        · rw [if_pos h4]
          split_ifs <;> simpa using h
        · rw [if_neg h4]
          by_cases h5 : c = o.delimiter ∧ st.inD = false ∧ st.inS = false ∧ parenAdjust st c = 0
          · rw [if_pos h5]
            split_ifs <;> simp_all
          · rw [if_neg h5]
            split_ifs <;> simpa using h

theorem tokStep_cur_ne (o : Opts) (st : TokState) (c : Char) (i : ℕ)
    (hc : c ≠ o.delimiter) : (tokStep o st c i).cur ≠ "" := by
  unfold tokStep
  by_cases h1 : st.esc = true
  · simp [h1, push_ne_empty]
  · rw [if_neg h1]
    by_cases h2 : c = '\\'
    · simp [h2, push_ne_empty]
    · rw [if_neg h2]
      by_cases h3 : c = '"' ∧ st.inS = false
      · rw [if_pos h3]
        split_ifs <;> simp [push_ne_empty]
      · rw [if_neg h3]
        by_cases h4 : c = '\'' ∧ st.inD = false
        · rw [if_pos h4]
          split_ifs <;> simp [push_ne_empty]
        · rw [if_neg h4]
          rw [if_neg (fun hh => hc (hh.1 : c = o.delimiter))]
          split_ifs <;> simp [push_ne_empty, singleton_ne_empty]

theorem tokStep_cur_or_tokens (o : Opts) (st : TokState) (c : Char) (i : ℕ)
    (h : st.cur ≠ "") : (tokStep o st c i).cur ≠ "" ∨ (tokStep o st c i).tokens ≠ [] := by
  unfold tokStep
  by_cases h1 : st.esc = true
  · simp [h1, push_ne_empty]
  · rw [if_neg h1]
    by_cases h2 : c = '\\'
    · simp [h2, push_ne_empty]
    · rw [if_neg h2]
      by_cases h3 : c = '"' ∧ st.inS = false
      · rw [if_pos h3]
        split_ifs <;> simp [push_ne_empty]
      · rw [if_neg h3]
        by_cases h4 : c = '\'' ∧ st.inD = false
        · rw [if_pos h4]
          split_ifs <;> simp [push_ne_empty]
        · rw [if_neg h4]
          by_cases h5 : c = o.delimiter ∧ st.inD = false ∧ st.inS = false ∧ parenAdjust st c = 0
          · rw [if_pos h5, if_pos h]
            simp
          · rw [if_neg h5]
            split_ifs <;> simp [push_ne_empty, singleton_ne_empty]

theorem dropWhile_ne_nil_exists (p : Char → Bool) :
    ∀ (l : List Char), l.dropWhile p ≠ [] → ∃ c ∈ l.dropWhile p, p c = false
  | [], h => absurd rfl h
  | a :: l, h => by
    rw [List.dropWhile_cons] at h ⊢
    split_ifs at h ⊢ with hp
    · exact dropWhile_ne_nil_exists p l h
    · exact ⟨a, List.mem_cons_self a _, by simpa using hp⟩

theorem jsTrim_exists_nonws (s : String) (h : jsTrim s ≠ "") :
    ∃ c ∈ (jsTrim s).data, jsWs c = false := by
  unfold jsTrim at h ⊢
  have hl2 : (s.data.dropWhile jsWs).reverse.dropWhile jsWs ≠ [] := by
    intro hh
    apply h
    simp [hh]
  obtain ⟨c, hc, hcw⟩ := dropWhile_ne_nil_exists jsWs _ hl2
  exact ⟨c, by simpa [List.mem_reverse] using hc, hcw⟩

theorem tokScan_finish_ne_nil (o : Opts) :
    ∀ (cs : List Char) (i : ℕ) (st : TokState),
      ((∃ c ∈ cs, c ≠ o.delimiter) ∨ st.cur ≠ "" ∨ st.tokens ≠ []) →
      (tokFinish o (tokScan o cs i st)).1 ≠ []
  | [], i, st, h => by
    unfold tokScan tokFinish
    rcases h with ⟨c, hc, _⟩ | h | h
    · cases hc
    · rw [if_pos h]
      simp [List.append_eq_nil]
    · simp [List.append_eq_nil, h]
  | c :: cs, i, st, h => by
    unfold tokScan
    apply tokScan_finish_ne_nil o cs (i + 1) (tokStep o st c i)
    by_cases hcd : c = o.delimiter
    · rcases h with ⟨c', hc', hne⟩ | h | h
      · rcases List.mem_cons.mp hc' with rfl | hmem
        · exact absurd hcd hne
        · exact Or.inl ⟨c', hmem, hne⟩
      · rcases tokStep_cur_or_tokens o st c i h with h2 | h2
        · exact Or.inr (Or.inl h2)
        · exact Or.inr (Or.inr h2)
      · exact Or.inr (Or.inr (tokStep_tokens_mono o st c i h))
    · exact Or.inr (Or.inl (tokStep_cur_ne o st c i hcd))

/-! ## Claim theorems -/

/-- C1 (amended): under a case-insensitive configuration with the
default single-space delimiter (and any prefix configuration, argument
format, or mention setting), `MessageParser.parse` returns `null`
exactly for the no-command-here cases: an empty or whitespace-only
message, a failed prefix match (where `findPrefix` yields empty
content), or nothing but whitespace after the matched prefix.  Every
other message yields a non-null `ParsedCommand` (possibly with errors
attached).  (Messages are strings in this embedding, so the non-string
case of the claim is vacuous.) -/
theorem C1_parse_null_exactly (pc : PrefixConfig) (af : ArgFormat) (mp : Bool) (msg : String) :
    MessageParser.parse
        { prefixCfg := pc, caseSensitive := false, delimiter := ' ',
          argFormat := af, mentionParsing := mp } msg = none ↔
      jsTrim msg = "" ∨
        jsTrim (findPrefix
          { prefixCfg := pc, caseSensitive := false, delimiter := ' ',
            argFormat := af, mentionParsing := mp } msg).2 = "" := by
  constructor
  · intro h
    by_contra hcon
    push_neg at hcon
    obtain ⟨hm, hp⟩ := hcon
    simp only [MessageParser.parse] at h
    rw [if_neg hm, if_neg hp] at h
    have htk : (tokenize
        { prefixCfg := pc, caseSensitive := false, delimiter := ' ',
          argFormat := af, mentionParsing := mp }
        (jsTrim (findPrefix
          { prefixCfg := pc, caseSensitive := false, delimiter := ' ',
            argFormat := af, mentionParsing := mp } msg).2)).1 ≠ [] := by
      unfold tokenize
      apply tokScan_finish_ne_nil
      left
      obtain ⟨c, hcm, hcw⟩ := jsTrim_exists_nonws _ hp
      refine ⟨c, hcm, fun hh => ?_⟩
      rw [hh] at hcw
      simp [jsWs] at hcw
    rw [if_neg htk, if_neg (fun hh => by cases hh.1)] at h
    cases h
  · rintro (h | h)
    · simp only [MessageParser.parse]
      rw [if_pos h]
    · simp only [MessageParser.parse]
      by_cases hm : jsTrim msg = ""
      · rw [if_pos hm]
      · rw [if_neg hm, if_pos h]

/-- C1 counterexample: with `caseSensitive` enabled, the message
`!HELP` matches the configured prefix `!` and has non-whitespace
content after it, yet `parse` returns `null` — so the claim's
"non-null for every prefixed message with content" direction fails as
stated over all configurations. -/
theorem C1_claim_counterexample :
    jsStartsWith "!HELP" "!" = true ∧
    jsTrim (findPrefix bangOptsCS "!HELP").2 ≠ "" ∧
    MessageParser.parse bangOptsCS "!HELP" = none :=
  ⟨rfl, by decide, rfl⟩

/-- C2 (amended): coercion returns a number exactly when the raw string
is not `"true"`/`"false"`, not empty/whitespace-only, parses as a
non-`NaN` number (possibly `±Infinity`) via `parseFloat`, and that
number's standard rendering round-trips to the identical input; the
returned number is the parsed value.  Partial numeric prefixes such as
`"5abc"` are not coerced. -/
theorem C2_coercion_number_iff :
    (∀ (s : String) (n : JSNum),
        coerceValue s = .num n ↔
          jsTrim s ≠ "" ∧ s ≠ "true" ∧ s ≠ "false" ∧
            jsParseFloat s = some n ∧ jsNumToString n = s) ∧
    coerceValue "5abc" = .str "5abc" := by
  refine ⟨fun s n => ?_, rfl⟩
  unfold coerceValue
  split_ifs with h1 h2 h3
  · simp [h1]
  · simp [h2]
  · simp [h3]
  · rcases hnc : numberCheck s with _ | m
    · simp only [hnc]
      constructor
      · intro h; exact absurd h (coerceTail_ne_num s n)
      · rintro ⟨-, -, -, hp, hs⟩
        rw [(numberCheck_eq_some s n).mpr ⟨hp, hs⟩] at hnc
        cases hnc
    · simp only [hnc]
      have hm := (numberCheck_eq_some s m).mp hnc
      constructor
      · rintro ⟨rfl⟩
        exact ⟨h1, h2, h3, hm.1, hm.2⟩
      · rintro ⟨-, -, -, hp, hs⟩
        rw [hm.1] at hp
        cases hp
        rfl

/-- C2 counterexample: `"Infinity"` round-trips through
`parseFloat`/`toString` and is coerced to a number, but that number is
not finite — refuting the claim's "finite" qualifier. -/
theorem C2_claim_counterexample :
    coerceValue "Infinity" = .num .inf ∧ JSNum.finiteNum .inf = false :=
  ⟨rfl, rfl⟩

/-- C3: with a typed-format parser and prefix `!`, parsing
`!help filter category name(general) status(active)` yields command
`help`, subcommands `[filter, category]` in order, args mapping `name`
to `"general"` and `status` to `"active"`, and no parse errors (for any
regex-test model, since no schema is registered). -/
theorem C3_typed_scenario (rex : String → String → Bool) :
    (Parser.parse rex { opts := bangOpts }
        "!help filter category name(general) status(active)").1 =
      some { prefixUsed := "!"
             command := "help"
             subcommands := ["filter", "category"]
             args := [("name", .str "general"), ("status", .str "active")]
             originalMessage := "!help filter category name(general) status(active)"
             mentions := [] } := rfl

/-- C4: an error on one token never aborts parsing of later tokens —
`parseTypedArgs` processes an appended suffix independently of what the
prefix produced, a well-formed token always lands in `args` no matter
the accumulated errors, and a malformed token only appends an error;
in particular `!test key(` parses to a non-null result whose `args`
lacks `key` and whose `errors` contain the
`Invalid typed argument format: "key("` entry. -/
theorem C4_error_recovery :
    (∀ (ts1 ts2 : List Token) (acc : ArgsAcc),
        parseTypedArgs (ts1 ++ ts2) acc = parseTypedArgs ts2 (parseTypedArgs ts1 acc)) ∧
    (∀ (t : Token) (acc : ArgsAcc) (k v : String),
        typedArgMatch t.value = some (k, v) →
        parseTypedArgs [t] acc =
          { acc with args := recordSet acc.args k (parseValue v) }) ∧
    (∀ (t : Token) (acc : ArgsAcc),
        typedArgMatch t.value = none →
        parseTypedArgs [t] acc =
          { acc with errors := acc.errors ++
              [{ type := .parse
                 message := "Invalid typed argument format: \"" ++ t.value ++ "\""
                 position := some t.position
                 suggestion := some "Use format: key(value)" }] }) ∧
    MessageParser.parse bangOpts "!test key(" =
      some { prefixUsed := "!"
             command := "test"
             subcommands := []
             args := []
             originalMessage := "!test key("
             mentions := []
             errors := some [{ type := .parse
                               message := "Invalid typed argument format: \"key(\""
                               position := some 5
                               suggestion := some "Use format: key(value)" }] } := by
  refine ⟨fun ts1 ts2 acc => List.foldl_append .., fun t acc k v h => ?_, fun t acc h => ?_, rfl⟩
  · simp [parseTypedArgs, typedArgStep, h]
  · simp [parseTypedArgs, typedArgStep, h]

/-- C4 witness: the compositionality and collection parts of
`C4_error_recovery` evaluated on concrete tokens. -/
theorem C4_error_recovery_witness :
    typedArgMatch "a(1)" = some ("a", "1") ∧
    typedArgMatch "b(" = none ∧
    parseTypedArgs [{ type := .text, value := "a(1)", position := 0 }] {} =
      { args := recordSet ([] : List (String × ArgumentValue)) "a" (parseValue "1"), errors := [] } ∧
    parseTypedArgs [{ type := .text, value := "b(", position := 0 }] {} =
      { args := []
        errors := [{ type := .parse
                     message := "Invalid typed argument format: \"b(\""
                     position := some 0
                     suggestion := some "Use format: key(value)" }] } :=
  ⟨rfl, rfl,
    C4_error_recovery.2.1 { type := .text, value := "a(1)", position := 0 } {} "a" "1" rfl,
    C4_error_recovery.2.2.1 { type := .text, value := "b(", position := 0 } {} rfl⟩

/-- C5: in a quiescent scan state with non-zero parenthesis depth
(remaining non-zero after the adjustment for the current character), a
scan step never terminates the token — it appends the character; the
input `key(1, 2, 3)` therefore scans as a single typed token; and a
scan that ends inside a quote produces the `Unclosed <kind> quote`
parse error while the accumulated token is still emitted. -/
theorem C5_tokenizer_paren_quotes :
    (∀ (o : Opts) (st : TokState) (c : Char) (i : ℕ),
        st.esc = false → st.inD = false → st.inS = false →
        st.paren ≠ 0 → parenAdjust st c ≠ 0 →
        (tokStep o st c i).tokens = st.tokens ∧ (tokStep o st c i).cur = st.cur.push c) ∧
    tokenize bangOpts "key(1, 2, 3)" =
      ([{ type := .typed, value := "key(1, 2, 3)", position := 0 }], []) ∧
    (∀ (o : Opts) (msg : String),
        (tokScan o msg.data 0 {}).inD = true ∨ (tokScan o msg.data 0 {}).inS = true →
        (∃ e ∈ (tokenize o msg).2,
            e.message = "Unclosed " ++
              (if (tokScan o msg.data 0 {}).inD then "double" else "single") ++ " quote") ∧
        ((tokScan o msg.data 0 {}).cur ≠ "" →
          createToken o (tokScan o msg.data 0 {}).cur (tokScan o msg.data 0 {}).curPos ∈
            (tokenize o msg).1)) :=
  ⟨tokStep_paren_no_split, rfl, tokenize_unclosed_quote⟩

/-- C5 witness: a delimiter inside an open parenthesis appends instead
of splitting, and tokenizing `"abc` (an unclosed double quote) reports
the error while still emitting the accumulated token. -/
theorem C5_tokenizer_paren_quotes_witness :
    (tokStep bangOpts { cur := "key(1", paren := 1 } ' ' 5).tokens =
        ({ cur := "key(1", paren := 1 } : TokState).tokens ∧
      (tokStep bangOpts { cur := "key(1", paren := 1 } ' ' 5).cur =
        ({ cur := "key(1", paren := 1 } : TokState).cur.push ' ' ∧
    (∃ e ∈ (tokenize bangOpts "\"abc").2,
        e.message = "Unclosed " ++
          (if (tokScan bangOpts "\"abc".data 0 {}).inD then "double" else "single") ++
          " quote") ∧
    createToken bangOpts (tokScan bangOpts "\"abc".data 0 {}).cur
        (tokScan bangOpts "\"abc".data 0 {}).curPos ∈ (tokenize bangOpts "\"abc").1 :=
  ⟨(C5_tokenizer_paren_quotes.1 bangOpts { cur := "key(1", paren := 1 } ' ' 5
      rfl rfl rfl (by decide) (by decide)).1,
   (C5_tokenizer_paren_quotes.1 bangOpts { cur := "key(1", paren := 1 } ' ' 5
      rfl rfl rfl (by decide) (by decide)).2,
   (C5_tokenizer_paren_quotes.2.2 bangOpts "\"abc" (Or.inl (by decide))).1,
   (C5_tokenizer_paren_quotes.2.2 bangOpts "\"abc" (Or.inl (by decide))).2 (by decide)⟩

/-- C6: when a subcommand present in the parsed command has a `subArgs`
entry for argument name `X`, the global `args` rule for `X` contributes
nothing to validation — removing it from the global rules leaves the
validation result unchanged (the subcommand rule fully replaces it). -/
theorem C6_subargs_override (rex : String → String → Bool) (parsed : ParsedCommand)
    (schema : CommandSchema) (sa : List (String × List (String × ArgumentSchema)))
    (X : String) (hsa : schema.subArgs = some sa)
    (hov : ∃ sub ∈ parsed.subcommands, ∃ ss, recordGet sa sub = some ss ∧ X ∈ ss.map Prod.fst) :
    validateArguments rex parsed schema =
      validateArguments rex parsed
        { schema with args := schema.args.map (fun l => l.filter (fun p => p.1 ≠ X)) } := by
  have hX : X ∈ parsed.subcommands.foldl
      (fun acc sub =>
        match recordGet sa sub with
        | some subSchema => acc ++ subSchema.map (·.1)
        | none => acc) [] :=
    mem_foldl_overridden sa X parsed.subcommands [] (Or.inl hov)
  unfold validateArguments
  rcases ha : schema.args with _ | as
  · simp [overriddenArgs, ha, hsa]
  · simp only [overriddenArgs, ha, hsa, Option.map_some']
    rw [foldl_skip_filter _ X (contains_of_mem _ _ hX) _ as []]

/-- C6 witness: for the `!info general` fixture, dropping the global
`category` rule (overridden by `subArgs.general.category`) leaves the
validation errors unchanged. -/
theorem C6_subargs_override_witness :
    (∃ sub ∈ infoParsed.subcommands, ∃ ss,
        recordGet [("general", [("category", ({ type := .string } : ArgumentSchema))])] sub =
          some ss ∧ "category" ∈ ss.map Prod.fst) ∧
    validateArguments rexNone infoParsed infoSchema =
      validateArguments rexNone infoParsed
        { infoSchema with
            args := infoSchema.args.map (fun l => l.filter (fun p => p.1 ≠ "category")) } :=
  ⟨⟨"general", by simp [infoParsed], [("category", { type := .string })], rfl, by simp⟩,
   C6_subargs_override rexNone infoParsed infoSchema
     [("general", [("category", { type := .string })])] "category" rfl
     ⟨"general", by simp [infoParsed], [("category", { type := .string })], rfl, by simp⟩⟩

/-- C7 (amended): for an absent (or null) value, validation runs exactly
the `allowedValues` check — which fires even for an absent value — and
the required check; so a required rule always emits the
required-argument error, an absent non-required argument with no
`allowedValues` yields no errors, and the `!test` scenario produces
exactly `Argument "name" is required for command "test".`. -/
theorem C7_required_validation (rex : String → String → Bool) :
    (∀ (s : ArgumentSchema) (argName cmd : String) (sub : Option String),
        validateArgument rex s none argName cmd sub =
          (match s.allowedValues with
           | some vs =>
             ["Argument \"" ++ argName ++ "\"" ++ contextStr sub ++ " must be one of: " ++
               joinComma (vs.map jsToStr) ++ ", but got \"" ++ "undefined" ++ "\"."]
           | none => []) ++
          (if s.required then
            ["Argument \"" ++ argName ++ "\"" ++ contextStr sub ++
              " is required for command \"" ++ cmd ++ "\"."]
           else [])) ∧
    (Parser.parse rex
        (Parser.registerSchema { opts := bangOpts } "test"
          { args := some [("name", { type := .string, required := true })] })
        "!test").1 =
      some { prefixUsed := "!"
             command := "test"
             subcommands := []
             args := []
             originalMessage := "!test"
             mentions := []
             validationErrors := some ["Argument \"name\" is required for command \"test\"."] } := by
  refine ⟨fun s argName cmd sub => ?_, rfl⟩
  unfold validateArgument
  rcases s.allowedValues with _ | vs <;> rcases hr : s.required <;>
    simp [jsIncludes, hr, jsOptToStr]

/-- C7 counterexample: an absent, non-required argument whose rule
declares `allowedValues` yields a validation error — refuting the
claim's "type/constraint checks run only when a value is present" and
"an absent non-required argument yields no validation errors". -/
theorem C7_claim_counterexample :
    validateArgument rexNone
        { type := .string, required := false, allowedValues := some [.str "a"] }
        none "name" "test" none =
      ["Argument \"name\" must be one of: a, but got \"undefined\"."] ∧
    validateArgument rexNone
        { type := .string, required := false, allowedValues := some [.str "a"] }
        none "name" "test" none ≠ [] :=
  ⟨rfl, by decide⟩

/-- C8: a custom validator that throws (models as `.error m`) is caught
and reported as the custom-validation-error message including the
underlying error text (never propagated — `validateType` is total and
returns the message list); a `false` result emits `customErrorMessage`
when supplied (and non-empty, per JS `||`), else the generic failure
message. -/
theorem C8_custom_validator_caught (rex : String → String → Bool) (s : ArgumentSchema)
    (f : ArgumentValue → Except String Bool) (v : ArgumentValue)
    (argName cmd : String) (sub : Option String)
    (ht : s.type = .custom) (hf : s.customValidator = some f) :
    validateType rex s v argName cmd sub =
      match f v with
      | .error m =>
        ["Argument \"" ++ argName ++ "\"" ++ contextStr sub ++
          " custom validation error: " ++ m]
      | .ok false =>
        [jsOrStr s.customErrorMessage
          ("Argument \"" ++ argName ++ "\"" ++ contextStr sub ++ " failed custom validation.")]
      | .ok true => [] := by
  unfold validateType
  rw [ht, hf]
  rcases hfv : f v with m | b
  · simp [hfv]
  · rcases b <;> simp [hfv]

/-- C8 witness: a throwing custom validator on a concrete value is
downgraded to the custom-validation-error message. -/
theorem C8_custom_validator_caught_witness :
    ({ type := .custom,
       customValidator := some (fun _ => .error "boom") } : ArgumentSchema).type = .custom ∧
    validateType rexNone
        { type := .custom, customValidator := some (fun _ => .error "boom") }
        (.str "x") "k" "c" none =
      ["Argument \"k\" custom validation error: boom"] :=
  ⟨rfl, C8_custom_validator_caught rexNone
      { type := .custom, customValidator := some (fun _ => .error "boom") }
      (fun _ => .error "boom") (.str "x") "k" "c" none rfl rfl⟩

/-- C9: a fresh `Parser` instance has no last-parsed command; a parse
call returning a non-null result `r` stores exactly `r` (even when it
carries `validationErrors`, since the stored value is the returned
one); a parse call returning `null` leaves the state — and hence the
stored last-parsed value — unchanged. -/
theorem C9_last_parsed_memory (rex : String → String → Bool) :
    (∀ (o : Opts) (st : ParserState), Parser.new o = .ok st → Parser.getLastParsed st = none) ∧
    (∀ (st : ParserState) (msg : String) (r : ParsedCommand) (st' : ParserState),
        Parser.parse rex st msg = (some r, st') → Parser.getLastParsed st' = some r) ∧
    (∀ (st : ParserState) (msg : String) (st' : ParserState),
        Parser.parse rex st msg = (none, st') → st' = st) := by
  refine ⟨fun o st h => ?_, fun st msg r st' h => ?_, fun st msg st' h => ?_⟩
  · unfold Parser.new at h
    split_ifs at h
    cases h
    rfl
  · unfold Parser.parse at h
    rcases hm : MessageParser.parse st.opts msg with _ | result <;> rw [hm] at h
    · cases h
    · simp only [Prod.mk.injEq, Option.some.injEq] at h
      rw [← h.2, Parser.getLastParsed, h.1]
  · unfold Parser.parse at h
    rcases hm : MessageParser.parse st.opts msg with _ | result <;> rw [hm] at h
    · exact (Prod.mk.injEq .. ▸ h).2.symm ▸ rfl
    · simp at h

/-- C9 witness: the three `C9_last_parsed_memory` parts applied to a
fresh `!`-prefixed parser, a successful `!ping` parse, and a
prefix-less (null) parse. -/
theorem C9_last_parsed_memory_witness :
    Parser.getLastParsed { opts := bangOpts } = none ∧
    Parser.getLastParsed
        { opts := bangOpts,
          lastParsed := some { prefixUsed := "!", command := "ping", subcommands := [],
                               args := [], originalMessage := "!ping", mentions := [] } } =
      some { prefixUsed := "!", command := "ping", subcommands := [], args := [],
             originalMessage := "!ping", mentions := [] } ∧
    ({ opts := bangOpts } : ParserState) = { opts := bangOpts } :=
  ⟨(C9_last_parsed_memory rexNone).1 bangOpts { opts := bangOpts } rfl,
   (C9_last_parsed_memory rexNone).2.1 { opts := bangOpts } "!ping"
     { prefixUsed := "!", command := "ping", subcommands := [], args := [],
       originalMessage := "!ping", mentions := [] }
     { opts := bangOpts,
       lastParsed := some { prefixUsed := "!", command := "ping", subcommands := [],
                            args := [], originalMessage := "!ping", mentions := [] } } rfl,
   (C9_last_parsed_memory rexNone).2.2 { opts := bangOpts } "no-prefix-here"
     { opts := bangOpts } rfl⟩

/-- C10: with `caseSensitive` enabled, whenever the command token that
the pipeline extracts differs from its own lowercased form (i.e. it
contains an uppercase character), `MessageParser.parse` returns `null`
— the rejection happens at the message-parsing stage, for any prefix
configuration and message. -/
theorem C10_case_sensitive_rejection (pc : PrefixConfig) (msg : String) :
    (extractCommandAndSubcommands { prefixCfg := pc, caseSensitive := true }
        (tokenize { prefixCfg := pc, caseSensitive := true }
          (jsTrim (findPrefix { prefixCfg := pc, caseSensitive := true } msg).2)).1).command ≠
      jsToLower
        (extractCommandAndSubcommands { prefixCfg := pc, caseSensitive := true }
          (tokenize { prefixCfg := pc, caseSensitive := true }
            (jsTrim (findPrefix { prefixCfg := pc, caseSensitive := true } msg).2)).1).command →
    MessageParser.parse { prefixCfg := pc, caseSensitive := true } msg = none := by
  intro h
  simp only [MessageParser.parse]
  split_ifs with h1 h2 h3 h4
  · rfl
  · rfl
  · rfl
  · rfl
  · exact absurd ⟨trivial, h⟩ h4

/-- C10 witness: `!HELP` with a case-sensitive `!` parser extracts the
command `HELP`, which differs from `help`, and parses to `null`. -/
theorem C10_case_sensitive_rejection_witness :
    ((extractCommandAndSubcommands bangOptsCS
        (tokenize bangOptsCS (jsTrim (findPrefix bangOptsCS "!HELP").2)).1).command ≠
      jsToLower
        (extractCommandAndSubcommands bangOptsCS
          (tokenize bangOptsCS (jsTrim (findPrefix bangOptsCS "!HELP").2)).1).command) ∧
    MessageParser.parse bangOptsCS "!HELP" = none :=
  ⟨by decide, C10_case_sensitive_rejection (.one "!") "!HELP" (by decide)⟩

end Vel
